import Mathlib

/-!
Shallow embedding of the bouns-bot sources (`main.py`, `twitter_adapter.py`).
Strings are modelled as lists of Unicode code points (`List Nat`), byte
buffers as lists of byte values (`List Nat`, each `< 256`).  External
library calls (chain RPC, cairosvg, tweepy) are modelled as oracle
parameters; the Python `base64`, `utf-8` and `json` library routines the
code calls are embedded below.
-/

namespace BounsBot

/-- Kinds of Python exception the modelled code can raise or catch. -/
inductive PyErr where
  | binasciiError
  | valueError
  | unicodeDecodeError
  | jsonDecodeError
  | keyError
  | typeError
  | attributeError
  | networkError
  deriving DecidableEq

/-- Index of a character in the standard base64 alphabet `A-Z a-z 0-9 + /`,
as used by the `base64` library routines called from `get_svg`. -/
def charToSextet (c : Nat) : Option Nat :=
  if 65 ≤ c ∧ c ≤ 90 then some (c - 65)
  else if 97 ≤ c ∧ c ≤ 122 then some (c - 71)
  else if 48 ≤ c ∧ c ≤ 57 then some (c + 4)
  else if c = 43 then some 62
  else if c = 47 then some 63
  else none

/-- Character of the standard base64 alphabet at index `s` (for `s < 64`). -/
def sextetToChar (s : Nat) : Nat :=
  if s < 26 then s + 65
  else if s < 52 then s + 71
  else if s < 62 then s - 4
  else if s = 62 then 43
  else 47

/-- Model of `base64.b64encode` on a byte buffer (output is the ASCII code
sequence of the encoding, `=` is code 61). -/
def b64encode : List Nat → List Nat
  | [] => []
  | [a] => [sextetToChar (a / 4), sextetToChar (a % 4 * 16), 61, 61]
  | [a, b] => [sextetToChar (a / 4), sextetToChar (a % 4 * 16 + b / 16),
               sextetToChar (b % 16 * 4), 61]
  | a :: b :: d :: rest =>
      sextetToChar (a / 4) :: sextetToChar (a % 4 * 16 + b / 16) ::
      sextetToChar (b % 16 * 4 + d / 64) :: sextetToChar (d % 64) :: b64encode rest

/-- Characters kept by `base64.b64decode` (alphabet characters and padding);
all others are discarded before decoding, per the library's default
`validate=False` behaviour. -/
def b64Keep (c : Nat) : Bool := (charToSextet c).isSome || c = 61

/-- Quad-wise base64 decoding after discarding: groups of four alphabet
characters yield three bytes, with `=` padding allowed only in the final
group; anything else raises `binascii.Error`. -/
def b64decodeQuads : List Nat → Except PyErr (List Nat)
  | [] => .ok []
  | c1 :: c2 :: c3 :: c4 :: rest =>
    match charToSextet c1, charToSextet c2 with
    | some s1, some s2 =>
      if c3 = 61 then
        if c4 = 61 ∧ rest = [] then .ok [s1 * 4 + s2 / 16] else .error .binasciiError
      else
        match charToSextet c3 with
        | some s3 =>
          if c4 = 61 then
            if rest = [] then .ok [s1 * 4 + s2 / 16, s2 % 16 * 16 + s3 / 4]
            else .error .binasciiError
          else
            match charToSextet c4 with
            | some s4 =>
              match b64decodeQuads rest with
              | .ok tl =>
                  .ok ((s1 * 4 + s2 / 16) :: (s2 % 16 * 16 + s3 / 4) ::
                       (s3 % 4 * 64 + s4) :: tl)
              | .error e => .error e
            | none => .error .binasciiError
        | none => .error .binasciiError
    | _, _ => .error .binasciiError
  | _ => .error .binasciiError

/-- Model of `base64.b64decode` applied to a Python `str`: the string is
first encoded as ASCII (raising `ValueError` on a non-ASCII code point),
non-alphabet characters are discarded, then quads are decoded. -/
def b64decode (s : List Nat) : Except PyErr (List Nat) :=
  if s.any (fun c => 128 ≤ c) then .error .valueError
  else b64decodeQuads (s.filter b64Keep)

lemma charToSextet_sextetToChar : ∀ s < 64, charToSextet (sextetToChar s) = some s := by
  decide

lemma sextetToChar_ne_61 : ∀ s < 64, sextetToChar s ≠ 61 := by decide

lemma sextetToChar_clean :
    ∀ s < 64, 32 ≤ sextetToChar s ∧ sextetToChar s ≠ 34 ∧
      sextetToChar s ≠ 92 ∧ sextetToChar s < 128 := by decide

lemma b64Keep_sextetToChar : ∀ s < 64, b64Keep (sextetToChar s) = true := by decide

/-- Every character produced by `b64encode` on a byte buffer is a printable
ASCII character distinct from quote and backslash. -/
lemma b64encode_clean (V : List Nat) (h : ∀ b ∈ V, b < 256) :
    ∀ c ∈ b64encode V, 32 ≤ c ∧ c ≠ 34 ∧ c ≠ 92 ∧ c < 128 := by
  induction V using b64encode.induct with
  | case1 => intro c hc; simp [b64encode] at hc
  | case2 a =>
    have ha : a < 256 := h a (by simp)
    intro c hc
    simp only [b64encode, List.mem_cons, List.not_mem_nil, or_false] at hc
    rcases hc with rfl | rfl | rfl | rfl
    · exact sextetToChar_clean _ (by omega)
    · exact sextetToChar_clean _ (by omega)
    · omega
    · omega
  | case3 a b =>
    have ha : a < 256 := h a (by simp)
    have hb : b < 256 := h b (by simp)
    intro c hc
    simp only [b64encode, List.mem_cons, List.not_mem_nil, or_false] at hc
    rcases hc with rfl | rfl | rfl | rfl
    · exact sextetToChar_clean _ (by omega)
    · exact sextetToChar_clean _ (by omega)
    · exact sextetToChar_clean _ (by omega)
    · omega
  | case4 a b d rest ih =>
    have ha : a < 256 := h a (by simp)
    have hb : b < 256 := h b (by simp)
    have hd : d < 256 := h d (by simp)
    have hrest : ∀ x ∈ rest, x < 256 := fun x hx => h x (by simp [hx])
    intro c hc
    simp only [b64encode, List.mem_cons] at hc
    rcases hc with rfl | rfl | rfl | rfl | hc
    · exact sextetToChar_clean _ (by omega)
    · exact sextetToChar_clean _ (by omega)
    · exact sextetToChar_clean _ (by omega)
    · exact sextetToChar_clean _ (by omega)
    · exact ih hrest c hc

lemma b64Keep_61 : b64Keep 61 = true := by decide

/-- The discard pass of `b64decode` keeps the output of `b64encode` intact. -/
lemma filter_b64Keep_encode (V : List Nat) (h : ∀ b ∈ V, b < 256) :
    (b64encode V).filter b64Keep = b64encode V := by
  induction V using b64encode.induct with
  | case1 => simp [b64encode]
  | case2 a =>
    have ha : a < 256 := h a (by simp)
    simp only [b64encode, List.filter_cons, List.filter_nil,
      b64Keep_sextetToChar _ (show a / 4 < 64 by omega),
      b64Keep_sextetToChar _ (show a % 4 * 16 < 64 by omega), b64Keep_61, if_true]
  | case3 a b =>
    have ha : a < 256 := h a (by simp)
    have hb : b < 256 := h b (by simp)
    simp only [b64encode, List.filter_cons, List.filter_nil,
      b64Keep_sextetToChar _ (show a / 4 < 64 by omega),
      b64Keep_sextetToChar _ (show a % 4 * 16 + b / 16 < 64 by omega),
      b64Keep_sextetToChar _ (show b % 16 * 4 < 64 by omega), b64Keep_61, if_true]
  | case4 a b d rest ih =>
    have ha : a < 256 := h a (by simp)
    have hb : b < 256 := h b (by simp)
    have hd : d < 256 := h d (by simp)
    have hrest : ∀ x ∈ rest, x < 256 := fun x hx => h x (by simp [hx])
    simp only [b64encode, List.filter_cons,
      b64Keep_sextetToChar _ (show a / 4 < 64 by omega),
      b64Keep_sextetToChar _ (show a % 4 * 16 + b / 16 < 64 by omega),
      b64Keep_sextetToChar _ (show b % 16 * 4 + d / 64 < 64 by omega),
      b64Keep_sextetToChar _ (show d % 64 < 64 by omega), if_true]
    rw [ih hrest]

/-- Quad decoding inverts encoding on byte buffers. -/
lemma b64decodeQuads_encode (V : List Nat) (h : ∀ b ∈ V, b < 256) :
    b64decodeQuads (b64encode V) = .ok V := by
  induction V using b64encode.induct with
  | case1 => simp [b64encode, b64decodeQuads]
  | case2 a =>
    have ha : a < 256 := h a (by simp)
    simp only [b64encode, b64decodeQuads,
      charToSextet_sextetToChar _ (show a / 4 < 64 by omega),
      charToSextet_sextetToChar _ (show a % 4 * 16 < 64 by omega)]
    simp
    omega
  | case3 a b =>
    have ha : a < 256 := h a (by simp)
    have hb : b < 256 := h b (by simp)
    simp only [b64encode, b64decodeQuads,
      charToSextet_sextetToChar _ (show a / 4 < 64 by omega),
      charToSextet_sextetToChar _ (show a % 4 * 16 + b / 16 < 64 by omega),
      charToSextet_sextetToChar _ (show b % 16 * 4 < 64 by omega)]
    rw [if_neg (sextetToChar_ne_61 _ (show b % 16 * 4 < 64 by omega))]
    simp
    omega
  | case4 a b d rest ih =>
    have ha : a < 256 := h a (by simp)
    have hb : b < 256 := h b (by simp)
    have hd : d < 256 := h d (by simp)
    have hrest : ∀ x ∈ rest, x < 256 := fun x hx => h x (by simp [hx])
    simp only [b64encode, b64decodeQuads,
      charToSextet_sextetToChar _ (show a / 4 < 64 by omega),
      charToSextet_sextetToChar _ (show a % 4 * 16 + b / 16 < 64 by omega),
      charToSextet_sextetToChar _ (show b % 16 * 4 + d / 64 < 64 by omega),
      charToSextet_sextetToChar _ (show d % 64 < 64 by omega)]
    rw [if_neg (sextetToChar_ne_61 _ (show b % 16 * 4 + d / 64 < 64 by omega))]
    rw [if_neg (sextetToChar_ne_61 _ (show d % 64 < 64 by omega))]
    rw [ih hrest]
    simp
    omega

/-- Round trip: `b64decode` inverts `b64encode` on every byte buffer. -/
theorem b64decode_encode (V : List Nat) (h : ∀ b ∈ V, b < 256) :
    b64decode (b64encode V) = .ok V := by
  have hclean := b64encode_clean V h
  have hany : (b64encode V).any (fun c => decide (128 ≤ c)) = false := by
    rw [List.any_eq_false]
    intro c hc
    simpa using (hclean c hc).2.2.2
  rw [b64decode, if_neg (by simp only [hany]; exact Bool.false_ne_true),
    filter_b64Keep_encode V h, b64decodeQuads_encode V h]

/-- Decode one UTF-8 code point from a lead byte and the following bytes:
returns the code point and how many continuation bytes it used.  Strict
mode, as in `bytes.decode("utf-8")`: malformed, overlong, surrogate and
out-of-range sequences are rejected. -/
def utf8First (b : Nat) (rest : List Nat) : Except PyErr (Nat × Nat) :=
  if b < 128 then .ok (b, 0)
  else if b < 194 then .error .unicodeDecodeError
  else if b < 224 then
    match rest with
    | b2 :: _ =>
      if 128 ≤ b2 ∧ b2 < 192 then .ok ((b - 192) * 64 + (b2 - 128), 1)
      else .error .unicodeDecodeError
    | [] => .error .unicodeDecodeError
  else if b < 240 then
    match rest with
    | b2 :: b3 :: _ =>
      if 128 ≤ b2 ∧ b2 < 192 ∧ 128 ≤ b3 ∧ b3 < 192 then
        if (b - 224) * 4096 + (b2 - 128) * 64 + (b3 - 128) < 2048 ∨
           (55296 ≤ (b - 224) * 4096 + (b2 - 128) * 64 + (b3 - 128) ∧
            (b - 224) * 4096 + (b2 - 128) * 64 + (b3 - 128) ≤ 57343) then
          .error .unicodeDecodeError
        else .ok ((b - 224) * 4096 + (b2 - 128) * 64 + (b3 - 128), 2)
      else .error .unicodeDecodeError
    | _ => .error .unicodeDecodeError
  else if b < 245 then
    match rest with
    | b2 :: b3 :: b4 :: _ =>
      if 128 ≤ b2 ∧ b2 < 192 ∧ 128 ≤ b3 ∧ b3 < 192 ∧ 128 ≤ b4 ∧ b4 < 192 then
        if (b - 240) * 262144 + (b2 - 128) * 4096 + (b3 - 128) * 64 + (b4 - 128) < 65536 ∨
           1114111 < (b - 240) * 262144 + (b2 - 128) * 4096 + (b3 - 128) * 64 + (b4 - 128) then
          .error .unicodeDecodeError
        else .ok ((b - 240) * 262144 + (b2 - 128) * 4096 + (b3 - 128) * 64 + (b4 - 128), 3)
      else .error .unicodeDecodeError
    | _ => .error .unicodeDecodeError
  else .error .unicodeDecodeError

/-- Fuel-indexed core of UTF-8 decoding; every code point consumes at
least one byte, so fuel at least the input length never runs out. -/
def utf8DecodeAux : Nat → List Nat → Except PyErr (List Nat)
  | _, [] => .ok []
  | 0, _ :: _ => .error .unicodeDecodeError
  | fuel + 1, b :: rest =>
    match utf8First b rest with
    | .error e => .error e
    | .ok p =>
      match utf8DecodeAux fuel (rest.drop p.2) with
      | .ok t => .ok (p.1 :: t)
      | .error e => .error e

/-- Model of `bytes.decode("utf-8")`: strict UTF-8 decoding of a byte
buffer into a code-point sequence. -/
def utf8Decode (l : List Nat) : Except PyErr (List Nat) := utf8DecodeAux l.length l

/-- ASCII byte buffers decode to themselves. -/
lemma utf8DecodeAux_ascii (fuel : Nat) (l : List Nat) (hfuel : l.length ≤ fuel)
    (h : ∀ b ∈ l, b < 128) : utf8DecodeAux fuel l = .ok l := by
  induction fuel generalizing l with
  | zero =>
    cases l with
    | nil => rfl
    | cons b rest => simp at hfuel
  | succ n ih =>
    cases l with
    | nil => rfl
    | cons b rest =>
      have hb : b < 128 := h b (by simp)
      have hrest : ∀ x ∈ rest, x < 128 := fun x hx => h x (by simp [hx])
      have hfirst : utf8First b rest = .ok (b, 0) := by
        rw [utf8First.eq_def, if_pos hb]
      rw [utf8DecodeAux, hfirst]
      have hr : utf8DecodeAux n rest = .ok rest :=
        ih rest (by simp at hfuel; omega) hrest
      simp [hr]

/-- ASCII byte buffers decode to themselves. -/
lemma utf8Decode_ascii (l : List Nat) (h : ∀ b ∈ l, b < 128) :
    utf8Decode l = .ok l :=
  utf8DecodeAux_ascii l.length l le_rfl h

/-- JSON values as produced by `json.loads`.  A numeric literal is kept as
its raw lexeme, since the modelled program never inspects numeric values. -/
inductive Json where
  | jnull
  | jbool (b : Bool)
  | jnum (lexeme : List Nat)
  | jstr (s : List Nat)
  | jarr (xs : List Json)
  | jobj (kvs : List (List Nat × Json))

/-- JSON whitespace (space, tab, newline, carriage return). -/
def isJsonWs (c : Nat) : Bool := c = 32 || c = 9 || c = 10 || c = 13

def skipWs : List Nat → List Nat
  | [] => []
  | c :: r => if isJsonWs c then skipWs r else c :: r

def isDigit (c : Nat) : Bool := 48 ≤ c && c ≤ 57

def hexVal (c : Nat) : Option Nat :=
  if 48 ≤ c ∧ c ≤ 57 then some (c - 48)
  else if 65 ≤ c ∧ c ≤ 70 then some (c - 55)
  else if 97 ≤ c ∧ c ≤ 102 then some (c - 87)
  else none

/-- Prepend a decoded character to the result of parsing the rest of a
string body, propagating failure. -/
def consFirst (c : Nat) (r : Except PyErr (List Nat × List Nat)) :
    Except PyErr (List Nat × List Nat) :=
  match r with
  | .ok p => .ok (c :: p.1, p.2)
  | .error e => .error e

/-- Body of a JSON string literal after the opening quote: returns the
decoded code points and the remaining input after the closing quote.
Escapes and the strict rejection of raw control characters follow
`json.loads`. -/
def parseStringBody : List Nat → Except PyErr (List Nat × List Nat)
  | [] => .error .jsonDecodeError
  | c :: r =>
    if c = 34 then .ok ([], r)
    else if c = 92 then
      match r with
      | [] => .error .jsonDecodeError
      | e :: r2 =>
        if e = 34 ∨ e = 92 ∨ e = 47 then consFirst e (parseStringBody r2)
        else if e = 98 then consFirst 8 (parseStringBody r2)
        else if e = 102 then consFirst 12 (parseStringBody r2)
        else if e = 110 then consFirst 10 (parseStringBody r2)
        else if e = 114 then consFirst 13 (parseStringBody r2)
        else if e = 116 then consFirst 9 (parseStringBody r2)
        else if e = 117 then
          match r2 with
          | h1 :: h2 :: h3 :: h4 :: r3 =>
            match hexVal h1, hexVal h2, hexVal h3, hexVal h4 with
            | some v1, some v2, some v3, some v4 =>
                consFirst (v1 * 4096 + v2 * 256 + v3 * 16 + v4) (parseStringBody r3)
            | _, _, _, _ => .error .jsonDecodeError
          | _ => .error .jsonDecodeError
        else .error .jsonDecodeError
    else if c < 32 then .error .jsonDecodeError
    else consFirst c (parseStringBody r)

/-- Numeric literal of the JSON grammar: optional minus, integer part with
no leading zero, optional fraction and exponent; the raw lexeme is
returned together with the remaining input. -/
def parseNumber (l : List Nat) : Except PyErr (List Nat × List Nat) :=
  let (neg, l1) :=
    match l with
    | 45 :: r => ([45], r)
    | _ => (([] : List Nat), l)
  let ds := l1.takeWhile isDigit
  let r := l1.dropWhile isDigit
  if ds.isEmpty then .error .jsonDecodeError
  else if 1 < ds.length ∧ ds.headI = 48 then .error .jsonDecodeError
  else
    let (frac, r2) :=
      match r with
      | 46 :: rb =>
        let fs := rb.takeWhile isDigit
        if fs.isEmpty then (([] : List Nat), r)
        else (46 :: fs, rb.dropWhile isDigit)
      | _ => (([] : List Nat), r)
    let (expo, r3) :=
      match r2 with
      | 101 :: 43 :: rb =>
        let es := rb.takeWhile isDigit
        if es.isEmpty then (([] : List Nat), r2)
        else (101 :: 43 :: es, rb.dropWhile isDigit)
      | 101 :: 45 :: rb =>
        let es := rb.takeWhile isDigit
        if es.isEmpty then (([] : List Nat), r2)
        else (101 :: 45 :: es, rb.dropWhile isDigit)
      | 101 :: rb =>
        let es := rb.takeWhile isDigit
        if es.isEmpty then (([] : List Nat), r2)
        else (101 :: es, rb.dropWhile isDigit)
      | 69 :: 43 :: rb =>
        let es := rb.takeWhile isDigit
        if es.isEmpty then (([] : List Nat), r2)
        else (69 :: 43 :: es, rb.dropWhile isDigit)
      | 69 :: 45 :: rb =>
        let es := rb.takeWhile isDigit
        if es.isEmpty then (([] : List Nat), r2)
        else (69 :: 45 :: es, rb.dropWhile isDigit)
      | 69 :: rb =>
        let es := rb.takeWhile isDigit
        if es.isEmpty then (([] : List Nat), r2)
        else (69 :: es, rb.dropWhile isDigit)
      | _ => (([] : List Nat), r2)
    .ok (neg ++ ds ++ frac ++ expo, r3)

mutual

/-- Recursive-descent JSON value, fuel-indexed; fuel strictly exceeding the
input length never runs out on this grammar because every nesting level
consumes input. -/
def parseValue : Nat → List Nat → Except PyErr (Json × List Nat)
  | 0, _ => .error .jsonDecodeError
  | n + 1, l =>
    match skipWs l with
    | [] => .error .jsonDecodeError
    | c :: r =>
      if c = 34 then
        match parseStringBody r with
        | .ok p => .ok (.jstr p.1, p.2)
        | .error e => .error e
      else if c = 123 then parseObjectRest n r
      else if c = 91 then parseArrayRest n r
      else if c = 116 then
        match r with
        | 114 :: 117 :: 101 :: r2 => .ok (.jbool true, r2)
        | _ => .error .jsonDecodeError
      else if c = 102 then
        match r with
        | 97 :: 108 :: 115 :: 101 :: r2 => .ok (.jbool false, r2)
        | _ => .error .jsonDecodeError
      else if c = 110 then
        match r with
        | 117 :: 108 :: 108 :: r2 => .ok (.jnull, r2)
        | _ => .error .jsonDecodeError
      else if c = 45 ∨ isDigit c then
        match parseNumber (c :: r) with
        | .ok p => .ok (.jnum p.1, p.2)
        | .error e => .error e
      else .error .jsonDecodeError

/-- Input position just after an opening brace. -/
def parseObjectRest : Nat → List Nat → Except PyErr (Json × List Nat)
  | 0, _ => .error .jsonDecodeError
  | n + 1, l =>
    match skipWs l with
    | 125 :: r => .ok (.jobj [], r)
    | other => parseMembers n other []

/-- Comma-separated `"key": value` members of an object body. -/
def parseMembers : Nat → List Nat → List (List Nat × Json) →
    Except PyErr (Json × List Nat)
  | 0, _, _ => .error .jsonDecodeError
  | n + 1, l, acc =>
    match skipWs l with
    | 34 :: r =>
      match parseStringBody r with
      | .ok kp =>
        match skipWs kp.2 with
        | 58 :: r3 =>
          match parseValue n r3 with
          | .ok vp =>
            match skipWs vp.2 with
            | 44 :: r5 => parseMembers n r5 (acc ++ [(kp.1, vp.1)])
            | 125 :: r5 => .ok (.jobj (acc ++ [(kp.1, vp.1)]), r5)
            | _ => .error .jsonDecodeError
          | .error e => .error e
        | _ => .error .jsonDecodeError
      | .error e => .error e
    | _ => .error .jsonDecodeError

/-- Input position just after an opening bracket. -/
def parseArrayRest : Nat → List Nat → Except PyErr (Json × List Nat)
  | 0, _ => .error .jsonDecodeError
  | n + 1, l =>
    match skipWs l with
    | 93 :: r => .ok (.jarr [], r)
    | other => parseElements n other []

/-- Comma-separated elements of an array body. -/
def parseElements : Nat → List Nat → List Json → Except PyErr (Json × List Nat)
  | 0, _, _ => .error .jsonDecodeError
  | n + 1, l, acc =>
    match parseValue n l with
    | .ok vp =>
      match skipWs vp.2 with
      | 44 :: r => parseElements n r (acc ++ [vp.1])
      | 93 :: r => .ok (.jarr (acc ++ [vp.1]), r)
      | _ => .error .jsonDecodeError
    | .error e => .error e

end

/-- Model of `json.loads`: parse one value and require only whitespace to
remain. -/
def jsonLoads (l : List Nat) : Except PyErr Json :=
  match parseValue (l.length + 4) l with
  | .error e => .error e
  | .ok (v, rest) =>
    match skipWs rest with
    | [] => .ok v
    | _ => .error .jsonDecodeError

/-- Last binding of a key in an object body: `json.loads` builds a `dict`,
where a repeated key keeps its last value. -/
def lookupLast (kvs : List (List Nat × Json)) (key : List Nat) : Option Json :=
  match kvs with
  | [] => none
  | (k, v) :: rest =>
    match lookupLast rest key with
    | some w => some w
    | none => if k = key then some v else none

/-- ASCII code points of the string `data:application/json;base64,`. -/
def jsonMarker : List Nat :=
  [100, 97, 116, 97, 58, 97, 112, 112, 108, 105, 99, 97, 116, 105, 111, 110,
   47, 106, 115, 111, 110, 59, 98, 97, 115, 101, 54, 52, 44]

/-- ASCII code points of the string `data:image/svg+xml;base64,`. -/
def svgMarker : List Nat :=
  [100, 97, 116, 97, 58, 105, 109, 97, 103, 101, 47, 115, 118, 103, 43, 120,
   109, 108, 59, 98, 97, 115, 101, 54, 52, 44]

/-- ASCII code points of the string `image`. -/
def imageKey : List Nat := [105, 109, 97, 103, 101]

/-- Evaluation of `metadata["image"]` followed by `.startswith` on the
result: a non-dict raises `TypeError`, a missing key raises `KeyError`,
and a non-string value raises `AttributeError` at the `startswith` call. -/
def getImageField : Json → Except PyErr (List Nat)
  | .jobj kvs =>
    match lookupLast kvs imageKey with
    | some (.jstr s) => .ok s
    | some _ => .error .attributeError
    | none => .error .keyError
  | _ => .error .typeError

/-- Embedding of `BounsBot.get_svg` (main.py lines 139-157): strip the JSON
data marker, base64-decode, decode UTF-8, parse JSON, take `image`, strip
the SVG data marker, and base64-decode again. -/
def get_svg (token_uri : List Nat) : Except PyErr (List Nat) :=
  let t := if jsonMarker.isPrefixOf token_uri
           then token_uri.drop jsonMarker.length else token_uri
  match b64decode t with
  | .error e => .error e
  | .ok bs =>
    match utf8Decode bs with
    | .error e => .error e
    | .ok cs =>
      match jsonLoads cs with
      | .error e => .error e
      | .ok metadata =>
        match getImageField metadata with
        | .error e => .error e
        | .ok image_data =>
          let img := if svgMarker.isPrefixOf image_data
                     then image_data.drop svgMarker.length else image_data
          b64decode img

/-- Embedding of `BounsBot.svg_to_png` (main.py lines 159-168): the
cairosvg conversion is an oracle; on its failure the original bytes are
returned unchanged, and the function itself is total (never raises). -/
def svg_to_png (conv : List Nat → Except PyErr (List Nat)) (svg_bytes : List Nat) :
    List Nat :=
  match conv svg_bytes with
  | .ok png_bytes => png_bytes
  | .error _ => svg_bytes

/-- Snapshot returned by the auction contract's `auction()` view
(main.py `AuctionData`). -/
structure AuctionData where
  noun_id : Nat
  amount : Nat
  start_time : Nat
  end_time : Nat
  bidder : List Nat
  settled : Bool
  deriving DecidableEq

/-- Embedding of `BounsBot._calculate_sleep_time` (main.py lines 101-112);
`now` stands for `int(time.time())`. -/
def calculate_sleep_time (now : Nat) (auction : AuctionData) : Nat :=
  if auction.settled = false ∧ now < auction.end_time then
    min (auction.end_time - now) 300
  else 300

/-- Python truthiness of an optional environment string: `None` and the
empty string are falsy. -/
def truthy : Option (List Nat) → Bool
  | none => false
  | some s => !s.isEmpty

/-- The four optional Twitter environment variables read by
`_initialize_twitter`. -/
structure TwitterCreds where
  api_key : Option (List Nat)
  api_secret : Option (List Nat)
  access_token : Option (List Nat)
  access_secret : Option (List Nat)

def TwitterCreds.allPresent (c : TwitterCreds) : Bool :=
  truthy c.api_key && truthy c.api_secret &&
  truthy c.access_token && truthy c.access_secret

/-- Log line emitted by `_initialize_twitter`. -/
inductive InitLog where
  | oauthOk
  | missingCreds
  | initError
  deriving DecidableEq

/-- Embedding of `BounsBot._initialize_twitter` (main.py lines 114-137).
The `TwitterAdapter(...)` construction is an oracle (`construct`); a
construction failure is caught, logged, and leaves the client `None`.
The function is total: startup never aborts here. -/
def initialize_twitter (c : TwitterCreds) (construct : Except PyErr Unit) :
    Option Unit × InitLog :=
  if c.allPresent then
    match construct with
    | .ok a => (some a, .oauthOk)
    | .error _ => (none, .initError)
  else (none, .missingCreds)

/-- Result of `tweepy` media upload as wrapped by the adapter. -/
structure MediaUploadResponse where
  media_id : List Nat
  media_key : Option (List Nat)
  deriving DecidableEq

/-- Embedding of `TwitterAdapter.upload_media` (twitter_adapter.py lines
41-63): the tweepy call is an oracle; any exception is caught internally
and surfaces as `none`.  Total, never raises. -/
def upload_media (oracle : Except PyErr MediaUploadResponse) :
    Option MediaUploadResponse :=
  match oracle with
  | .ok m => some m
  | .error _ => none

/-- Embedding of `TwitterAdapter.post_tweet` (twitter_adapter.py lines
65-85): the tweepy `create_tweet` call is an oracle; success maps to
`true`, any exception is caught and maps to `false`.  Total. -/
def adapter_post_tweet (oracle : Except PyErr Unit) : Bool :=
  match oracle with
  | .ok _ => true
  | .error _ => false

/-- Externally observable actions of one publish attempt. -/
inductive Event where
  | fetchAttempt (i : Nat)
  | retrySleep (d : Nat)
  | mockTweet (token_id : Nat)
  | mediaUploadCall (payload : List Nat)
  | createTweetCall (media_id : List Nat)
  deriving DecidableEq

/-- Embedding of `BounsBot.post_tweet` (main.py lines 170-193), returning
the trace of externally observable actions.  With no live client the mock
branch only logs; in live mode a failed upload returns before the
post-creation call.  All branches return normally. -/
def post_tweet (twitter_live : Bool)
    (uploadOracle : List Nat → Except PyErr MediaUploadResponse)
    (createOracle : List Nat → Except PyErr Unit)
    (png_data : List Nat) (token_id : Nat) : List Event :=
  if twitter_live = false then [Event.mockTweet token_id]
  else
    match upload_media (uploadOracle png_data) with
    | none => [Event.mediaUploadCall png_data]
    | some m =>
      match adapter_post_tweet (createOracle m.media_id) with
      | true => [Event.mediaUploadCall png_data, Event.createTweetCall m.media_id]
      | false => [Event.mediaUploadCall png_data, Event.createTweetCall m.media_id]

/-- Retry loop of main.py lines 214-226: `remaining` failures may still be
tolerated, `i` is the current attempt index, `delay` the current backoff.
On the last attempt the exception is re-raised; otherwise the loop sleeps
`delay` seconds and doubles it. -/
def retryAux (call : Nat → Except PyErr (List Nat)) :
    Nat → Nat → Nat → Except PyErr (List Nat) × List Event
  | 0, i, _ =>
    (call i, [Event.fetchAttempt i])
  | n + 1, i, delay =>
    match call i with
    | .ok v => (.ok v, [Event.fetchAttempt i])
    | .error _ =>
      let p := retryAux call n (i + 1) (delay * 2)
      (p.1, Event.fetchAttempt i :: Event.retrySleep delay :: p.2)

/-- The tokenURI fetch with retries (main.py lines 213-226):
`max_retries = 5`, initial delay 1 second. -/
def fetchTokenURIWithRetry (call : Nat → Except PyErr (List Nat)) :
    Except PyErr (List Nat) × List Event :=
  retryAux call 4 0 1

/-- Seconds slept inside the retry loop of a trace. -/
def sleepSum : List Event → Nat
  | [] => 0
  | Event.retrySleep d :: rest => d + sleepSum rest
  | _ :: rest => sleepSum rest

/-- Number of fetch attempts in a trace. -/
def attemptCount : List Event → Nat
  | [] => 0
  | Event.fetchAttempt _ :: rest => 1 + attemptCount rest
  | _ :: rest => attemptCount rest

/-- Oracles for the per-unit pipeline: the attempt-indexed result of the
`tokenURI` chain call, the cairosvg conversion, and the two tweepy calls. -/
structure UnitEnv where
  tokenURI : Nat → Except PyErr (List Nat)
  svg2png : List Nat → Except PyErr (List Nat)
  uploadOracle : List Nat → Except PyErr MediaUploadResponse
  createOracle : List Nat → Except PyErr Unit

/-- Outcome of the inner per-unit try block (main.py lines 212-235). -/
structure UnitResult where
  events : List Event
  caughtError : Option PyErr
  deriving DecidableEq

/-- Embedding of the per-unit pipeline (main.py lines 212-235): fetch the
token URI with retries, decode, rasterize, publish; any exception from
fetch or decode is caught at the per-unit boundary (line 234) and
recorded, after which no publish is attempted. -/
def processUnit (env : UnitEnv) (twitter_live : Bool) (noun_id : Nat) :
    UnitResult :=
  let p := fetchTokenURIWithRetry env.tokenURI
  match p.1 with
  | .error e => { events := p.2, caughtError := some e }
  | .ok uri =>
    match get_svg uri with
    | .error e => { events := p.2, caughtError := some e }
    | .ok svg_bytes =>
      let png_bytes := svg_to_png env.svg2png svg_bytes
      let tevs := post_tweet twitter_live env.uploadOracle env.createOracle
                    png_bytes noun_id
      { events := p.2 ++ tevs, caughtError := none }

/-- Oracles for one iteration of the main loop: the `auction()` chain call,
the per-unit oracles, and the current wall-clock time. -/
structure LoopEnv where
  getAuction : Except PyErr AuctionData
  unit : UnitEnv
  now : Nat

/-- Python local variables of `main_loop` that persist across iterations:
`last_noun_id`, and the binding state of the local `current_auction`
(unbound until the first successful poll). -/
structure LoopState where
  last_noun_id : Nat
  current_auction : Option AuctionData
  deriving DecidableEq

/-- Result of one iteration of the `while True` loop (main.py lines
203-244): either the loop reaches `time.sleep` and continues with a new
state, or an uncaught exception terminates `main_loop`. -/
inductive StepOutcome where
  | next (s : LoopState) (processed : List Nat) (events : List Event) (sleep : Nat)
  | crash
  deriving DecidableEq

/-- Ids submitted to the pipeline during a step. -/
def StepOutcome.processed : StepOutcome → List Nat
  | .next _ p _ _ => p
  | .crash => []

/-- Embedding of one iteration of `BounsBot.main_loop` (main.py lines
203-244).  The outer try catches a failed poll (line 239), but the sleep
computation at line 243 reads the local variable `current_auction`
outside any try: if no poll has ever succeeded, that read raises an
uncaught `UnboundLocalError` and `main_loop` terminates.  When the poll
succeeds and the fetched id is strictly greater than `last_noun_id`, the
unit is processed and the marker becomes the new id regardless of the
pipeline's outcome (line 237). -/
def loopStep (env : LoopEnv) (twitter_live : Bool) (s : LoopState) :
    StepOutcome :=
  match env.getAuction with
  | .error _ =>
    match s.current_auction with
    | none => .crash
    | some a =>
      .next { s with current_auction := some a } [] []
        (calculate_sleep_time env.now a)
  | .ok a =>
    if s.last_noun_id < a.noun_id then
      let r := processUnit env.unit twitter_live a.noun_id
      .next { last_noun_id := a.noun_id, current_auction := some a }
        [a.noun_id] r.events (calculate_sleep_time env.now a)
    else
      .next { s with last_noun_id := s.last_noun_id, current_auction := some a }
        [] [] (calculate_sleep_time env.now a)

/-- Concrete auction snapshot used as a test fixture (settled, in the
past, so its sleep time is the 300s default). -/
def sampleAuction (id : Nat) : AuctionData :=
  { noun_id := id, amount := 0, start_time := 0, end_time := 0,
    bidder := [], settled := true }

/-- Per-unit oracle fixture in which every external call fails. -/
def failUnitEnv : UnitEnv :=
  { tokenURI := fun _ => .error .networkError,
    svg2png := fun v => .ok v,
    uploadOracle := fun _ => .error .networkError,
    createOracle := fun _ => .ok () }

/-- C5: for every auction state and current time, the computed sleep
duration equals `min (endTime - now) 300` when the auction is unsettled
with a strictly future end time, and 300 otherwise; it is always strictly
positive and at most 300. -/
theorem c5_sleep_bounds (now : Nat) (auction : AuctionData) :
    (auction.settled = false ∧ now < auction.end_time →
        calculate_sleep_time now auction = min (auction.end_time - now) 300) ∧
    (auction.settled = true ∨ auction.end_time ≤ now →
        calculate_sleep_time now auction = 300) ∧
    0 < calculate_sleep_time now auction ∧
    calculate_sleep_time now auction ≤ 300 := by
  unfold calculate_sleep_time
  by_cases hcond : auction.settled = false ∧ now < auction.end_time
  · rw [if_pos hcond]
    refine ⟨fun _ => rfl, fun hc => ?_, by omega, by omega⟩
    rcases hc with hs | ht
    · rw [hcond.1] at hs; cases hs
    · exact absurd hcond.2 (by omega)
  · rw [if_neg hcond]
    exact ⟨fun hc => absurd hc hcond, fun _ => rfl, by omega, by omega⟩

/-- Witness for C5 at the spec's example inputs: an unsettled auction
ending 120 seconds from now sleeps 120, one that ended sleeps 300. -/
theorem c5_sleep_bounds_witness :
    calculate_sleep_time 1000
        { noun_id := 1, amount := 0, start_time := 0, end_time := 1120,
          bidder := [], settled := false } = min (1120 - 1000) 300 ∧
    calculate_sleep_time 1000
        { noun_id := 1, amount := 0, start_time := 0, end_time := 990,
          bidder := [], settled := false } = 300 := by
  constructor
  · exact (c5_sleep_bounds 1000 _).1 ⟨rfl, by decide⟩
  · exact (c5_sleep_bounds 1000 _).2.1 (Or.inr (by decide))

/-- C7: for every conversion oracle and input, `svg_to_png` either returns
the converted raster bytes or, when the conversion fails, the original
input bytes unchanged; it is a total function, so it never raises. -/
theorem c7_rasterize_fallback (conv : List Nat → Except PyErr (List Nat))
    (v : List Nat) :
    (∃ p, conv v = .ok p ∧ svg_to_png conv v = p) ∨
    (∃ e, conv v = .error e ∧ svg_to_png conv v = v) := by
  cases h : conv v with
  | ok p => exact Or.inl ⟨p, rfl, by simp [svg_to_png, h]⟩
  | error e => exact Or.inr ⟨e, rfl, by simp [svg_to_png, h]⟩

/-- C9: with all four Twitter credentials present but the adapter
construction failing, startup does not abort: `_initialize_twitter`
returns normally with the client `None` and the error logged, identical
(in the resulting client) to the no-credentials mock fallback. -/
theorem c9_twitter_init_fallback (c : TwitterCreds) (e : PyErr)
    (hall : c.allPresent = true) :
    initialize_twitter c (.error e) = (none, InitLog.initError) ∧
    ∀ (c2 : TwitterCreds) (con2 : Except PyErr Unit), c2.allPresent = false →
      initialize_twitter c2 con2 = (none, InitLog.missingCreds) ∧
      (initialize_twitter c (.error e)).1 = (initialize_twitter c2 con2).1 := by
  refine ⟨by simp [initialize_twitter, hall], fun c2 con2 h2 => ?_⟩
  exact ⟨by simp [initialize_twitter, h2], by simp [initialize_twitter, hall, h2]⟩

/-- Witness for C9 at concrete credentials. -/
theorem c9_twitter_init_fallback_witness :
    initialize_twitter
        { api_key := some [107], api_secret := some [115],
          access_token := some [116], access_secret := some [97] }
        (.error .networkError) = (none, InitLog.initError) ∧
    initialize_twitter
        { api_key := none, api_secret := none,
          access_token := none, access_secret := none }
        (.ok ()) = (none, InitLog.missingCreds) := by
  have h := c9_twitter_init_fallback
      { api_key := some [107], api_secret := some [115],
        access_token := some [116], access_secret := some [97] }
      .networkError (by decide)
  have h2 := (h.2 ⟨none, none, none, none⟩ (.ok ()) (by decide)).1
  exact ⟨h.1, h2⟩

/-- C10: in live mode, when the media upload fails (the adapter returns
`None`), `post_tweet` returns after logging, never invoking the
post-creation call; as a total function it propagates no exception. -/
theorem c10_no_post_without_media
    (uploadOracle : List Nat → Except PyErr MediaUploadResponse)
    (createOracle : List Nat → Except PyErr Unit)
    (png : List Nat) (tid : Nat) (e : PyErr)
    (hup : uploadOracle png = .error e) :
    post_tweet true uploadOracle createOracle png tid =
      [Event.mediaUploadCall png] ∧
    ∀ m, Event.createTweetCall m ∉ post_tweet true uploadOracle createOracle png tid := by
  have hpt : post_tweet true uploadOracle createOracle png tid =
      [Event.mediaUploadCall png] := by
    simp [post_tweet, upload_media, hup]
  refine ⟨hpt, fun m hm => ?_⟩
  rw [hpt] at hm
  simp at hm

/-- Witness for C10 at a concrete failing upload oracle. -/
theorem c10_no_post_without_media_witness :
    post_tweet true (fun _ => .error .networkError) (fun _ => .ok ()) [7] 3 =
      [Event.mediaUploadCall [7]] ∧
    Event.createTweetCall [] ∉
      post_tweet true (fun _ => .error .networkError) (fun _ => .ok ()) [7] 3 := by
  have h := c10_no_post_without_media
      (fun _ => .error .networkError) (fun _ => .ok ()) [7] 3 .networkError rfl
  exact ⟨h.1, h.2 []⟩

/-- C2: the claim that the loop survives every failed poll is contradicted
by the code at its first iteration: a failed `auction()` call is caught,
but the sleep computation then reads the still-unbound local
`current_auction` and the resulting `UnboundLocalError` terminates
`main_loop`.  On a later iteration (after one successful poll bound the
variable) the same failed poll is survived with the 300s default sleep. -/
theorem c2_first_poll_failure_crashes :
    loopStep { getAuction := .error .networkError, unit := failUnitEnv, now := 0 }
        false { last_noun_id := 0, current_auction := none } = .crash ∧
    loopStep { getAuction := .error .networkError, unit := failUnitEnv, now := 0 }
        false { last_noun_id := 0, current_auction := some (sampleAuction 0) } =
      .next { last_noun_id := 0, current_auction := some (sampleAuction 0) }
        [] [] 300 :=
  ⟨rfl, rfl⟩

/-- Counterexample to C1 as stated: the fetched id 3 differs from the
marker 5, yet no unit is processed, because the code tests strict
increase (`>`), not inequality. -/
theorem c1_counterexample :
    (sampleAuction 3).noun_id ≠ 5 ∧
    loopStep { getAuction := .ok (sampleAuction 3), unit := failUnitEnv, now := 0 }
        false { last_noun_id := 5, current_auction := none } =
      .next { last_noun_id := 5, current_auction := some (sampleAuction 3) }
        [] [] 300 :=
  ⟨by decide, rfl⟩

/-- C1 (amended): in a poll cycle whose fetch succeeds, exactly the
fetched unit is submitted to the pipeline when its id is strictly greater
than the marker, and no unit is processed otherwise (equal or smaller). -/
theorem c1_amended_strict_increase (env : LoopEnv) (tl : Bool) (s : LoopState)
    (a : AuctionData) (h : env.getAuction = .ok a) :
    (s.last_noun_id < a.noun_id → (loopStep env tl s).processed = [a.noun_id]) ∧
    (a.noun_id ≤ s.last_noun_id → (loopStep env tl s).processed = []) := by
  constructor
  · intro hlt
    simp [loopStep, h, hlt, StepOutcome.processed]
  · intro hle
    simp [loopStep, h, Nat.not_lt.mpr hle, StepOutcome.processed]

/-- Witness for the amended C1 at concrete ids 9 > 5 and 5 = 5. -/
theorem c1_amended_strict_increase_witness :
    (loopStep { getAuction := .ok (sampleAuction 9), unit := failUnitEnv, now := 0 }
        false { last_noun_id := 5, current_auction := none }).processed = [9] ∧
    (loopStep { getAuction := .ok (sampleAuction 5), unit := failUnitEnv, now := 0 }
        false { last_noun_id := 5, current_auction := none }).processed = [] := by
  constructor
  · exact (c1_amended_strict_increase _ false _ (sampleAuction 9) rfl).1 (by decide)
  · exact (c1_amended_strict_increase _ false _ (sampleAuction 5) rfl).2 (by decide)

/-- C4: whenever a newly detected unit is attempted, the marker advances
to that unit's id for every possible pipeline outcome (the per-unit
oracles are arbitrary, so this covers success and caught exceptions
alike), and a later cycle fetching an id no greater than the new marker
processes nothing, so the unit is never automatically re-attempted. -/
theorem c4_marker_always_advances (env : LoopEnv) (tl : Bool) (s : LoopState)
    (a : AuctionData) (h : env.getAuction = .ok a)
    (hlt : s.last_noun_id < a.noun_id) :
    loopStep env tl s =
      .next { last_noun_id := a.noun_id, current_auction := some a } [a.noun_id]
        (processUnit env.unit tl a.noun_id).events
        (calculate_sleep_time env.now a) ∧
    ∀ (env2 : LoopEnv) (a2 : AuctionData), env2.getAuction = .ok a2 →
      a2.noun_id ≤ a.noun_id →
      (loopStep env2 tl
        { last_noun_id := a.noun_id, current_auction := some a }).processed = [] := by
  constructor
  · simp [loopStep, h, hlt]
  · intro env2 a2 h2 hle
    simp [loopStep, h2, Nat.not_lt.mpr hle, StepOutcome.processed]

/-- Witness for C4 with a pipeline whose fetch always fails: the marker
still advances from 5 to 9, and a second cycle with the same id processes
nothing. -/
theorem c4_marker_always_advances_witness :
    loopStep { getAuction := .ok (sampleAuction 9), unit := failUnitEnv, now := 0 }
        false { last_noun_id := 5, current_auction := none } =
      .next { last_noun_id := 9, current_auction := some (sampleAuction 9) } [9]
        (processUnit failUnitEnv false 9).events
        (calculate_sleep_time 0 (sampleAuction 9)) ∧
    (loopStep { getAuction := .ok (sampleAuction 9), unit := failUnitEnv, now := 0 }
        false { last_noun_id := 9, current_auction := some (sampleAuction 9) }).processed
      = [] := by
  have h := c4_marker_always_advances
      { getAuction := .ok (sampleAuction 9), unit := failUnitEnv, now := 0 } false
      { last_noun_id := 5, current_auction := none } (sampleAuction 9) rfl (by decide)
  exact ⟨h.1, h.2 _ (sampleAuction 9) rfl (by decide)⟩

lemma retryAux_zero (call : Nat → Except PyErr (List Nat)) (i d : Nat) :
    retryAux call 0 i d = (call i, [Event.fetchAttempt i]) := rfl

lemma retryAux_succ (call : Nat → Except PyErr (List Nat)) (n i d : Nat) :
    retryAux call (n + 1) i d =
      match call i with
      | .ok v => (.ok v, [Event.fetchAttempt i])
      | .error _ =>
        let p := retryAux call n (i + 1) (d * 2)
        (p.1, Event.fetchAttempt i :: Event.retrySleep d :: p.2) := rfl

/-- A retry trace holds at most `n + 1` fetch attempts. -/
lemma attemptCount_retryAux (call : Nat → Except PyErr (List Nat)) :
    ∀ n i d, attemptCount (retryAux call n i d).2 ≤ n + 1 := by
  intro n
  induction n with
  | zero => intro i d; simp [retryAux_zero, attemptCount]
  | succ n ih =>
    intro i d
    rw [retryAux_succ]
    cases hc : call i with
    | ok v => simp [attemptCount]
    | error e =>
      have h := ih (i + 1) (d * 2)
      simp only [attemptCount]
      omega

/-- Retry traces consist only of fetch attempts and sleeps. -/
lemma retryAux_events_shape (call : Nat → Except PyErr (List Nat)) :
    ∀ n i d, ∀ ev ∈ (retryAux call n i d).2,
      (∃ j, ev = Event.fetchAttempt j) ∨ (∃ w, ev = Event.retrySleep w) := by
  intro n
  induction n with
  | zero =>
    intro i d ev hev
    rw [retryAux_zero] at hev
    simp at hev
    exact Or.inl ⟨i, hev⟩
  | succ n ih =>
    intro i d ev hev
    rw [retryAux_succ] at hev
    cases hc : call i with
    | ok v =>
      rw [hc] at hev
      simp at hev
      exact Or.inl ⟨i, hev⟩
    | error e =>
      rw [hc] at hev
      simp only [List.mem_cons] at hev
      rcases hev with rfl | rfl | hev
      · exact Or.inl ⟨i, rfl⟩
      · exact Or.inr ⟨d, rfl⟩
      · exact ih (i + 1) (d * 2) ev hev

/-- C3: the token-URI fetch makes at most 5 attempts with doubling waits
starting at 1 second; failing 4 times then succeeding returns the value
after cumulative sleep 1+2+4+8 = 15; failing all 5 times propagates the
last error, the unit's pipeline records the caught error, and no publish
action (mock or live) appears in its trace. -/
theorem c3_retry_policy (call : Nat → Except PyErr (List Nat)) (v : List Nat)
    (es : Nat → PyErr) :
    attemptCount (fetchTokenURIWithRetry call).2 ≤ 5 ∧
    ((∀ i, i < 4 → call i = .error (es i)) → call 4 = .ok v →
      fetchTokenURIWithRetry call =
        (.ok v,
         [.fetchAttempt 0, .retrySleep 1, .fetchAttempt 1, .retrySleep 2,
          .fetchAttempt 2, .retrySleep 4, .fetchAttempt 3, .retrySleep 8,
          .fetchAttempt 4]) ∧
      sleepSum (fetchTokenURIWithRetry call).2 = 15) ∧
    ((∀ i, i ≤ 4 → call i = .error (es i)) →
      (fetchTokenURIWithRetry call).1 = .error (es 4) ∧
      sleepSum (fetchTokenURIWithRetry call).2 = 15 ∧
      ∀ (env : UnitEnv) (tl : Bool) (uid : Nat), env.tokenURI = call →
        (processUnit env tl uid).caughtError = some (es 4) ∧
        (∀ p, Event.mediaUploadCall p ∉ (processUnit env tl uid).events) ∧
        (∀ m, Event.createTweetCall m ∉ (processUnit env tl uid).events) ∧
        (∀ t, Event.mockTweet t ∉ (processUnit env tl uid).events)) := by
  refine ⟨by simpa using attemptCount_retryAux call 4 0 1, ?_, ?_⟩
  · intro hf h4
    have h0 := hf 0 (by omega)
    have h1 := hf 1 (by omega)
    have h2 := hf 2 (by omega)
    have h3 := hf 3 (by omega)
    have key : fetchTokenURIWithRetry call =
        (.ok v,
         [.fetchAttempt 0, .retrySleep 1, .fetchAttempt 1, .retrySleep 2,
          .fetchAttempt 2, .retrySleep 4, .fetchAttempt 3, .retrySleep 8,
          .fetchAttempt 4]) := by
      rw [fetchTokenURIWithRetry, retryAux_succ, h0]
      simp only
      rw [retryAux_succ, h1]
      simp only
      rw [retryAux_succ, h2]
      simp only
      rw [retryAux_succ, h3]
      simp only
      rw [retryAux_zero, h4]
    rw [key]
    exact ⟨rfl, rfl⟩
  · intro hf
    have h0 := hf 0 (by omega)
    have h1 := hf 1 (by omega)
    have h2 := hf 2 (by omega)
    have h3 := hf 3 (by omega)
    have h4 := hf 4 (by omega)
    have key : fetchTokenURIWithRetry call =
        (.error (es 4),
         [.fetchAttempt 0, .retrySleep 1, .fetchAttempt 1, .retrySleep 2,
          .fetchAttempt 2, .retrySleep 4, .fetchAttempt 3, .retrySleep 8,
          .fetchAttempt 4]) := by
      rw [fetchTokenURIWithRetry, retryAux_succ, h0]
      simp only
      rw [retryAux_succ, h1]
      simp only
      rw [retryAux_succ, h2]
      simp only
      rw [retryAux_succ, h3]
      simp only
      rw [retryAux_zero, h4]
    refine ⟨by rw [key], by rw [key]; rfl, ?_⟩
    intro env tl uid henv
    have hp : processUnit env tl uid =
        { events := (fetchTokenURIWithRetry call).2, caughtError := some (es 4) } := by
      rw [processUnit, henv]
      rw [show (fetchTokenURIWithRetry call).1 = .error (es 4) from by rw [key]]
    have hshape : ∀ ev ∈ (fetchTokenURIWithRetry call).2,
        (∃ j, ev = Event.fetchAttempt j) ∨ (∃ w, ev = Event.retrySleep w) :=
      retryAux_events_shape call 4 0 1
    refine ⟨by rw [hp], ?_, ?_, ?_⟩
    · intro p hmem
      rw [hp] at hmem
      rcases hshape _ hmem with ⟨j, hj⟩ | ⟨w, hw⟩ <;> simp_all
    · intro m hmem
      rw [hp] at hmem
      rcases hshape _ hmem with ⟨j, hj⟩ | ⟨w, hw⟩ <;> simp_all
    · intro t hmem
      rw [hp] at hmem
      rcases hshape _ hmem with ⟨j, hj⟩ | ⟨w, hw⟩ <;> simp_all

/-- Witness for C3: a call failing on attempts 0-3 and succeeding on
attempt 4 yields the value with 15 seconds of cumulative sleep, and a
call failing on all attempts propagates its error. -/
theorem c3_retry_policy_witness :
    fetchTokenURIWithRetry (fun i => if i < 4 then .error .networkError else .ok [1]) =
      (.ok [1],
       [.fetchAttempt 0, .retrySleep 1, .fetchAttempt 1, .retrySleep 2,
        .fetchAttempt 2, .retrySleep 4, .fetchAttempt 3, .retrySleep 8,
        .fetchAttempt 4]) ∧
    sleepSum (fetchTokenURIWithRetry
      (fun i => if i < 4 then .error .networkError else .ok [1])).2 = 15 ∧
    (fetchTokenURIWithRetry (fun _ => .error .valueError)).1 = .error .valueError := by
  have ha := (c3_retry_policy
      (fun i => if i < 4 then .error .networkError else .ok [1]) [1]
      (fun _ => .networkError)).2.1
      (by intro i hi; simp [hi]) (by simp)
  have hb := (c3_retry_policy (fun _ => .error .valueError) []
      (fun _ => .valueError)).2.2 (by intro i _; rfl)
  exact ⟨ha.1, ha.2, hb.1⟩

/-- C8: a token URI whose base64 payload decodes to bytes that are not
valid UTF-8, or to text that is not valid JSON, or to a JSON object with
no `image` key, makes `get_svg` raise (return an error) rather than
return bytes. -/
theorem c8_decode_failures (uri B : List Nat)
    (hb : b64decode (if jsonMarker.isPrefixOf uri
            then uri.drop jsonMarker.length else uri) = .ok B)
    (hbad : (∃ e, utf8Decode B = .error e) ∨
            (∃ cs, utf8Decode B = .ok cs ∧ ∃ e, jsonLoads cs = .error e) ∨
            (∃ cs kvs, utf8Decode B = .ok cs ∧ jsonLoads cs = .ok (.jobj kvs) ∧
               lookupLast kvs imageKey = none)) :
    ∃ e, get_svg uri = .error e := by
  rcases hbad with ⟨e, he⟩ | ⟨cs, hcs, e, he⟩ | ⟨cs, kvs, hcs, hj, hk⟩
  · refine ⟨e, ?_⟩
    simp only [get_svg]
    rw [hb]
    simp [he]
  · refine ⟨e, ?_⟩
    simp only [get_svg]
    rw [hb]
    simp [hcs, he]
  · refine ⟨.keyError, ?_⟩
    simp only [get_svg]
    rw [hb]
    simp [hcs, hj, getImageField, hk]

/-- Witness for C8: the URI `e30=` (base64 of `\x7b\x7d`) decodes to an
empty JSON object, which lacks the `image` key. -/
theorem c8_decode_failures_witness :
    ∃ e, get_svg [101, 51, 48, 61] = .error e :=
  c8_decode_failures [101, 51, 48, 61] [123, 125] rfl
    (Or.inr (Or.inr ⟨[123, 125], [], rfl, rfl, rfl⟩))

/-- JSON text `\x7b"image": "<svg-marker><base64 of V>"\x7d` as a code
point list, built per the spec's round-trip construction. -/
def imageJsonText (V : List Nat) : List Nat :=
  123 :: 34 :: 105 :: 109 :: 97 :: 103 :: 101 :: 34 :: 58 :: 32 :: 34 ::
    ((svgMarker ++ b64encode V) ++ [34, 125])

/-- Token URI built per the claim: the JSON marker followed by the base64
encoding of a JSON object whose `image` field is the SVG data URI of `V`. -/
def mkImageUri (V : List Nat) : List Nat :=
  jsonMarker ++ b64encode (imageJsonText V)

lemma skipWs_cons_notWs (c : Nat) (r : List Nat) (h : isJsonWs c = false) :
    skipWs (c :: r) = c :: r := by
  simp [skipWs, h]

/-- A string body made of printable characters other than quote and
backslash parses up to the closing quote. -/
lemma parseStringBody_clean (s rest : List Nat)
    (h : ∀ c ∈ s, 32 ≤ c ∧ c ≠ 34 ∧ c ≠ 92) :
    parseStringBody (s ++ 34 :: rest) = .ok (s, rest) := by
  induction s with
  | nil =>
    rw [List.nil_append, parseStringBody.eq_def]
    simp
  | cons c s ih =>
    have h1 : ¬ c = 34 := (h c (by simp)).2.1
    have h2 : ¬ c = 92 := (h c (by simp)).2.2
    have h3 : ¬ c < 32 := by have := (h c (by simp)).1; omega
    have ihs := ih (fun x hx => h x (by simp [hx]))
    rw [List.cons_append, parseStringBody.eq_def]
    simp [h1, h2, h3, ihs, consFirst]

/-- Parsing the constructed one-field object succeeds when the value
string is clean. -/
lemma parseValue_imageObj (k : Nat) (T : List Nat)
    (h : ∀ c ∈ T, 32 ≤ c ∧ c ≠ 34 ∧ c ≠ 92) :
    parseValue (k + 1 + 1 + 1 + 1)
      (123 :: 34 :: 105 :: 109 :: 97 :: 103 :: 101 :: 34 :: 58 :: 32 :: 34 ::
        (T ++ [34, 125])) =
      .ok (.jobj [(imageKey, .jstr T)], []) := by
  have hkey : parseStringBody
      (105 :: 109 :: 97 :: 103 :: 101 :: 34 :: 58 :: 32 :: 34 :: (T ++ [34, 125])) =
      .ok (imageKey, 58 :: 32 :: 34 :: (T ++ [34, 125])) := by
    have hpc := parseStringBody_clean imageKey
      (58 :: 32 :: 34 :: (T ++ [34, 125])) (by decide)
    simpa [imageKey] using hpc
  have hval : parseStringBody (T ++ [34, 125]) = .ok (T, [125]) :=
    parseStringBody_clean T [125] h
  simp [parseValue, parseObjectRest, parseMembers, skipWs, isJsonWs,
    hkey, hval, imageKey]

/-- Characters of the constructed `image` value are printable, non-quote,
non-backslash. -/
lemma svgValue_clean (V : List Nat) (h : ∀ b ∈ V, b < 256) :
    ∀ c ∈ svgMarker ++ b64encode V, 32 ≤ c ∧ c ≠ 34 ∧ c ≠ 92 := by
  intro c hc
  rcases List.mem_append.mp hc with hm | hm
  · exact (show ∀ x ∈ svgMarker, 32 ≤ x ∧ x ≠ 34 ∧ x ≠ 92 by decide) c hm
  · have hcl := b64encode_clean V h c hm
    exact ⟨hcl.1, hcl.2.1, hcl.2.2.1⟩

/-- The constructed JSON text is plain ASCII. -/
lemma imageJsonText_lt128 (V : List Nat) (h : ∀ b ∈ V, b < 256) :
    ∀ c ∈ imageJsonText V, c < 128 := by
  intro c hc
  simp only [imageJsonText, List.mem_cons] at hc
  rcases hc with rfl | rfl | rfl | rfl | rfl | rfl | rfl | rfl | rfl | rfl | rfl | hm
  · omega
  · omega
  · omega
  · omega
  · omega
  · omega
  · omega
  · omega
  · omega
  · omega
  · omega
  · rcases List.mem_append.mp hm with hm2 | hm2
    · rcases List.mem_append.mp hm2 with hm3 | hm3
      · exact (show ∀ x ∈ svgMarker, x < 128 by decide) c hm3
      · exact (b64encode_clean V h c hm3).2.2.2
    · simp at hm2
      rcases hm2 with rfl | rfl
      · omega
      · omega

/-- C6: decoding the token URI built by base64-encoding the JSON object
with `image` set to the SVG data URI of `V` and prepending the JSON
marker returns exactly `V`. -/
theorem c6_decode_roundtrip (V : List Nat) (h : ∀ b ∈ V, b < 256) :
    get_svg (mkImageUri V) = .ok V := by
  have hlt128 := imageJsonText_lt128 V h
  have h256 : ∀ b ∈ imageJsonText V, b < 256 := fun b hb => by
    have := hlt128 b hb; omega
  have hpre : jsonMarker.isPrefixOf (mkImageUri V) = true := by
    rw [mkImageUri, List.isPrefixOf_iff_prefix]
    exact List.prefix_append _ _
  have hdrop : (mkImageUri V).drop jsonMarker.length = b64encode (imageJsonText V) := by
    rw [mkImageUri]
    exact List.drop_left _ _
  have hb64 : b64decode (b64encode (imageJsonText V)) = .ok (imageJsonText V) :=
    b64decode_encode _ h256
  have hutf : utf8Decode (imageJsonText V) = .ok (imageJsonText V) :=
    utf8Decode_ascii _ hlt128
  have hparse : parseValue ((imageJsonText V).length + 4) (imageJsonText V) =
      .ok (.jobj [(imageKey, .jstr (svgMarker ++ b64encode V))], []) := by
    rw [show (imageJsonText V).length + 4 =
        (imageJsonText V).length + 1 + 1 + 1 + 1 from rfl]
    exact parseValue_imageObj _ _ (svgValue_clean V h)
  have hloads : jsonLoads (imageJsonText V) =
      .ok (.jobj [(imageKey, .jstr (svgMarker ++ b64encode V))]) := by
    rw [jsonLoads, hparse]
    simp [skipWs]
  have hfield : getImageField (.jobj [(imageKey, .jstr (svgMarker ++ b64encode V))]) =
      .ok (svgMarker ++ b64encode V) := by
    simp [getImageField, lookupLast]
  have hpre2 : svgMarker.isPrefixOf (svgMarker ++ b64encode V) = true := by
    rw [List.isPrefixOf_iff_prefix]
    exact List.prefix_append _ _
  have hdrop2 : (svgMarker ++ b64encode V).drop svgMarker.length = b64encode V :=
    List.drop_left _ _
  have hb64v : b64decode (b64encode V) = .ok V := b64decode_encode V h
  simp [get_svg, hpre, hdrop, hb64, hutf, hloads, hfield, hpre2, hdrop2, hb64v]

/-- Witness for C6 at the concrete buffer `hi`. -/
theorem c6_decode_roundtrip_witness :
    get_svg (mkImageUri [104, 105]) = .ok [104, 105] :=
  c6_decode_roundtrip [104, 105] (by decide)

end BounsBot
